import Mathlib

/-!
Verification development for the TuneLink Lavalink client.

Shallow embedding of the core structures:
- Session model (src/unnamed/part_003, Player.js): playback state machine,
  update coalescing, auto-resume bookkeeping, track-end policy.
- Pool model (src/build/structures/Connection.js, TuneLink.js part): node
  registry, health-score based selection, failover, persistence.
- EngineConnection reconnect model (src/build/structures/Node.js): close
  handling and the bounded automatic-reconnect counter.
- Health-score model (Node.js penalties/getHealthStatus and
  TuneLink.calculateNodeScore).

JS numbers are modelled as Rat (for stats arithmetic) and Int (for
positions/volumes); JS Math.round is modelled exactly as floor (x + 1/2).
The Queue structure used by Player is a plain JS Array in the repository
(push/shift/unshift/splice at the call sites); it is modelled as a Lean
list, with entries of type Option Track because JS code can place null
into the queue (Player.trackEnd requeues this.current, which may be null).
-/

namespace TuneLink

/-- A resolved track: the engine-specific encoded token (Track#track in the
source). Display metadata is irrelevant to the claims and omitted. -/
structure Track where
  track : String
  deriving DecidableEq, Repr

/-- One object passed to Player.queueUpdate / Rest.updatePlayer. Each field
is Option-al: none means the key is absent from the JS object literal.
The track field itself carries an Option String because the source sends
both a track with an encoded token and a track with encoded null (stop). -/
structure UpdateData where
  track : Option (Option String) := none
  position : Option Int := none
  volume : Option Int := none
  paused : Option Bool := none
  deriving DecidableEq, Repr

/-- Object.assign field semantics: a key present in the second object
overwrites the first. -/
def pickField (b a : Option α) : Option α :=
  match b with
  | some x => some x
  | none => a

/-- Object.assign (mergedUpdate, update) over the four modelled fields, as
performed by Player.processUpdateQueue. -/
def UpdateData.assign (a b : UpdateData) : UpdateData :=
  { track := pickField b.track a.track
    position := pickField b.position a.position
    volume := pickField b.volume a.volume
    paused := pickField b.paused a.paused }

/-- Outbound commands observable at the REST / gateway boundary. -/
inductive Cmd
  | updatePlayer (u : UpdateData)
  | destroyPlayer
  | gatewayVoiceJoin (guildId : String) (channelId : Option String)
  deriving DecidableEq, Repr

/-- Domain events emitted on the client emitter. -/
inductive Ev
  | trackStart
  | autoResume (position : Int)
  | trackEnd
  | queueEnd
  | playerCreate (guildId : String)
  | debug (msg : String)
  deriving DecidableEq, Repr

/-- Per-tenant Session state (Player.js). Fields mirror the Player
constructor; autoResumeState is modelled by its enabled flag and
lastPosition (the only parts the core reads back); filters are an
out-of-scope collaborator and omitted. -/
structure PlayerState where
  guildId : String
  node : String
  textChannel : Option String
  voiceChannel : Option String
  connectionState : String
  mute : Bool
  deaf : Bool
  volume : Int
  loop : String
  position : Int
  current : Option Track
  queue : List (Option Track)
  previousTracks : List (Option Track)
  playing : Bool
  paused : Bool
  connected : Bool
  pendingAutoResume : Bool
  updateQueue : List UpdateData
  timerActive : Bool
  batchUpdates : Bool
  autoResumeEnabled : Bool
  lastPosition : Int
  isAutoplay : Bool
  multipleTrackHistory : Option Nat
  deriving DecidableEq, Repr

/-- Result of one Session operation: the new state, the commands sent to
the engine/gateway during the call, and the domain events emitted. -/
structure PStep where
  state : PlayerState
  cmds : List Cmd := []
  evs : List Ev := []
  deriving DecidableEq, Repr

/-- Options objects handed to the Player constructor (and to
TuneLink.createConnection). A none field models an absent JS key. -/
structure PlayerOptions where
  guildId : String
  region : Option String := none
  textChannel : Option String := none
  voiceChannel : Option String := none
  mute : Bool := false
  deaf : Bool := false
  defaultVolume : Option Int := none
  loop : Option String := none
  autoResume : Bool := false
  multipleTrackHistory : Option Nat := none
  deriving Repr

/-- Player constructor (Player.js). betterAutoPlay on the emitter drives
isAutoplay; modelled as an explicit argument. -/
def newPlayer (o : PlayerOptions) (nodeName : String) (betterAutoPlay : Bool := false) :
    PlayerState :=
  { guildId := o.guildId
    node := nodeName
    textChannel := o.textChannel
    voiceChannel := o.voiceChannel
    connectionState := "disconnected"
    mute := o.mute
    deaf := o.deaf
    volume := o.defaultVolume.getD 100
    loop := o.loop.getD "none"
    position := 0
    current := none
    queue := []
    previousTracks := []
    playing := false
    paused := false
    connected := false
    pendingAutoResume := false
    updateQueue := []
    timerActive := false
    batchUpdates := true
    autoResumeEnabled := o.autoResume
    lastPosition := 0
    isAutoplay := betterAutoPlay
    multipleTrackHistory := o.multipleTrackHistory }

namespace Player

/-- Player.queueUpdate: when batching, append the update object to the
buffer and (re)arm the flush timer; otherwise send immediately. -/
def queueUpdate (u : UpdateData) (p : PlayerState) : PStep :=
  if p.batchUpdates then
    { state := { p with updateQueue := p.updateQueue ++ [u], timerActive := true } }
  else
    { state := p, cmds := [Cmd.updatePlayer u] }

/-- Player.processUpdateQueue: merge every buffered update with
Object.assign semantics and send the single merged command. -/
def processUpdateQueue (p : PlayerState) : PStep :=
  if p.updateQueue = [] then { state := p }
  else
    let merged := p.updateQueue.foldl UpdateData.assign {}
    { state := { p with updateQueue := [] }, cmds := [Cmd.updatePlayer merged] }

/-- Player.setVolume: range-check then queue a coalesced volume update. -/
def setVolume (v : Int) (p : PlayerState) : Except String PStep :=
  if v < 0 ∨ v > 1000 then Except.error "Volume must be between 0 and 1000"
  else
    let s := queueUpdate { volume := some v } p
    Except.ok { s with state := { s.state with volume := v } }

/-- Player.pause. -/
def pause (toggle : Bool) (p : PlayerState) : PStep :=
  let s := queueUpdate { paused := some toggle } p
  { s with state := { s.state with playing := ¬toggle, paused := toggle } }

/-- Player.stop: reset position/playing and queue a null-track update. -/
def stop (p : PlayerState) : PStep :=
  let p1 := { p with position := 0, playing := false }
  queueUpdate { track := some none } p1

/-- Player.disconnect: when in a voice channel, pause, leave the channel
via the gateway and mark disconnected. -/
def disconnect (p : PlayerState) : PStep :=
  if p.connectionState = "disconnected" ∨ p.voiceChannel = none then { state := p }
  else
    let s := pause true p
    let st := { s.state with
                  playing := false
                  connectionState := "disconnected"
                  connected := false
                  voiceChannel := none }
    { state := st, cmds := s.cmds ++ [Cmd.gatewayVoiceJoin p.guildId none] }

/-- Player.destroy (with its default disconnect = true): disconnect, cancel
the flush timer, discard the buffered updates, and send the destroy
command directly. -/
def destroy (p : PlayerState) : PStep :=
  let s := disconnect p
  let st := { s.state with timerActive := false, updateQueue := [] }
  { state := st, cmds := s.cmds ++ [Cmd.destroyPlayer] }

/-- Player.play: returns none where the JS code throws (not connected and
auto-resume disabled, or a null entry shifted from the queue). Tracks in
this model are already resolved, so the resolve branch is not taken. -/
def play (pos : Int) (p : PlayerState) : Option PStep :=
  if p.connected = false then
    if p.autoResumeEnabled then some { state := p } else none
  else
    match p.queue with
    | [] => some { state := p }
    | none :: _ => none
    | some t :: rest =>
      let p1 := { p with current := some t, queue := rest, playing := true, position := pos }
      some (queueUpdate { track := some (some t.track), position := some pos } p1)

/-- Player.restart: the internal recovery play path. Raises the
pending-resume flag, then sends the last track at the remembered position
directly through the REST manager (not through the coalescing buffer). -/
def restart (p : PlayerState) : PStep :=
  match p.current with
  | none => { state := p }
  | some cur =>
    if p.connected = false then { state := p }
    else
      let resumePosition := if p.lastPosition ≠ 0 then p.lastPosition else p.position
      let data : UpdateData :=
        { track := some (some cur.track)
          position := some resumePosition
          paused := some p.paused
          volume := some p.volume }
      { state := { p with
                     pendingAutoResume := true
                     position := resumePosition
                     playing := ¬p.paused }
        cmds := [Cmd.updatePlayer data] }

/-- History update of Player.addToPreviousTrack. With no configured bound
the single slot at index 0 is overwritten; with a configured bound the
history is truncated to that bound (splice) before the new entry is
pushed at the front. -/
def pushPreviousTracks (mth : Option Nat) (prev : List (Option Track)) (t : Option Track) :
    List (Option Track) :=
  match mth with
  | none => t :: prev.drop 1
  | some n => if prev.length ≥ n then t :: prev.take n else t :: prev

/-- Player.addToPreviousTrack. -/
def addToPreviousTrack (p : PlayerState) (t : Option Track) : PlayerState :=
  { p with previousTracks := pushPreviousTracks p.multipleTrackHistory p.previousTracks t }

/-- Player.trackEnd. The autoplay branch hands off to the out-of-scope
recommendation fetcher and is modelled as emitting only the end event. -/
def trackEnd (reason : String) (p : PlayerState) : Option PStep :=
  let t := p.current
  let p1 := addToPreviousTrack { p with playing := false } t
  if reason = "REPLACED" then
    some { state := p1, evs := [Ev.trackEnd, Ev.trackEnd] }
  else if p1.connected = false then
    some { state := p1, evs := [Ev.trackEnd, Ev.queueEnd] }
  else if p1.loop = "track" ∧ reason ≠ "STOPPED" then
    (play 0 { p1 with queue := t :: p1.queue }).map
      (fun s => { s with evs := Ev.trackEnd :: s.evs })
  else if p1.loop = "queue" ∧ reason ≠ "STOPPED" then
    (play 0 { p1 with queue := p1.queue ++ [t] }).map
      (fun s => { s with evs := Ev.trackEnd :: s.evs })
  else if p1.queue ≠ [] then
    (play 0 p1).map (fun s => { s with evs := Ev.trackEnd :: s.evs })
  else if p1.isAutoplay then
    some { state := p1, evs := [Ev.trackEnd] }
  else
    some { state := p1, evs := [Ev.trackEnd, Ev.queueEnd] }

/-- Player.trackStart. -/
def trackStart (p : PlayerState) : PStep :=
  { state := { p with playing := true }, evs := [Ev.trackStart] }

/-- Player.handleEvent, restricted to the event types the claims exercise.
The pending-resume check lives here, on the TrackStartEvent case. -/
def handleEvent (etype reason : String) (p : PlayerState) : Option PStep :=
  if etype = "TrackStartEvent" then
    if p.pendingAutoResume then
      some { state := { p with pendingAutoResume := false }
             evs := [Ev.autoResume p.position] }
    else some (trackStart p)
  else if etype = "TrackEndEvent" then trackEnd reason p
  else some { state := p }

end Player

/-- Player.toJSON: the serialized Session snapshot. autoResumeState is
serialized with the state; only the fields the core reads back are kept. -/
structure PlayerSnapshot where
  guildId : String
  textChannel : Option String
  voiceChannel : Option String
  volume : Int
  loop : String
  playing : Bool
  paused : Bool
  connected : Bool
  position : Int
  current : Option Track
  queue : List (Option Track)
  previousTracks : List (Option Track)
  autoResumeEnabled : Bool
  autoResumeLastPosition : Int
  deriving DecidableEq, Repr

def PlayerState.toJSON (p : PlayerState) : PlayerSnapshot :=
  { guildId := p.guildId
    textChannel := p.textChannel
    voiceChannel := p.voiceChannel
    volume := p.volume
    loop := p.loop
    playing := p.playing
    paused := p.paused
    connected := p.connected
    position := p.position
    current := p.current
    queue := p.queue
    previousTracks := p.previousTracks
    autoResumeEnabled := p.autoResumeEnabled
    autoResumeLastPosition := p.lastPosition }

/-- Player.fromJSON: construct a fresh Player from the snapshot fields the
constructor understands (defaultVolume, loop), then copy the runtime
fields back; when a position was saved it becomes the auto-resume
position. -/
def Player.fromJSON (nodeName : String) (d : PlayerSnapshot) : PlayerState :=
  let p := newPlayer
    { guildId := d.guildId
      textChannel := d.textChannel
      voiceChannel := d.voiceChannel
      defaultVolume := some d.volume
      loop := some d.loop } nodeName
  let p := { p with
               playing := d.playing
               paused := d.paused
               connected := d.connected
               position := d.position
               current := d.current
               queue := d.queue
               previousTracks := d.previousTracks
               autoResumeEnabled := d.autoResumeEnabled
               lastPosition := d.autoResumeLastPosition }
  if d.position > 0 then { p with lastPosition := d.position } else p

/-- One registered EngineConnection as the pool selection logic sees it:
registration identity, connectivity, declared regions, and the cached
health score (TuneLink.getNodeHealth caches the computed score per node
within the staleness window; selection reads that cache). -/
structure NodeInfo where
  name : String
  connected : Bool
  regions : List String
  score : Rat
  deriving DecidableEq, Repr

/-- Insert a node (later in registration order than every element of the
already-sorted list) before the first element of strictly greater score:
this reproduces the ascending, stable Array.prototype.sort of
TuneLink.leastUsedNodes with comparator a.score - b.score. -/
def insertNode (n : NodeInfo) : List NodeInfo → List NodeInfo
  | [] => [n]
  | m :: ms => if m.score < n.score then m :: insertNode n ms else n :: m :: ms

/-- Stable ascending sort by cached score (ES2019 Array.prototype.sort is
stable, so equal scores keep registration order). -/
def stableSortScore : List NodeInfo → List NodeInfo
  | [] => []
  | n :: ns => insertNode n (stableSortScore ns)

/-- The earliest-registered node attaining the minimal score. This is the
claim-side characterization of the selection policy (strictly lowest
score, ties by registration order) used to compare with the sorted head. -/
def firstMinNode : List NodeInfo → Option NodeInfo
  | [] => none
  | n :: ns =>
    match firstMinNode ns with
    | none => some n
    | some m => if n.score ≤ m.score then some n else some m

/-- The engine-pool state (TuneLink orchestrator): node registry in
registration order, player registry in insertion order (Map semantics). -/
structure Pool where
  initiated : Bool
  nodes : List NodeInfo
  players : List (String × PlayerState)
  deriving Repr

/-- Map.get over the player registry. -/
def findPlayer (g : String) : List (String × PlayerState) → Option PlayerState
  | [] => none
  | (k, p) :: rest => if k = g then some p else findPlayer g rest

/-- Map.set over the player registry: replace in place, else append. -/
def setPlayer (g : String) (p : PlayerState) :
    List (String × PlayerState) → List (String × PlayerState)
  | [] => [(g, p)]
  | (k, q) :: rest => if k = g then (g, p) :: rest else (k, q) :: setPlayer g p rest

/-- TuneLink.leastUsedNodes: connected nodes sorted ascending by cached
score. -/
def leastUsedNodes (nodes : List NodeInfo) : List NodeInfo :=
  stableSortScore (nodes.filter (fun n => n.connected))

/-- TuneLink.fetchRegion followed by the pick in getBestNodeForRegion:
connected nodes declaring the (lowercased) region, sorted by score; empty
region set falls back to the overall least-used node. -/
def getBestNodeForRegion (nodes : List NodeInfo) (r : String) : Option NodeInfo :=
  let regionNodes :=
    stableSortScore (nodes.filter (fun n => n.connected && n.regions.contains r.toLower))
  match regionNodes with
  | n :: _ => some n
  | [] => (leastUsedNodes nodes).head?

/-- Player.connect: validates guildId/voiceChannel/textChannel, ignores a
second call while already connected or connecting, and asks the gateway
to join the voice channel. -/
def playerConnect (o : PlayerOptions) (p : PlayerState) : Except String (PlayerState × List Cmd) :=
  if p.connected then Except.ok (p, [])
  else
    match o.voiceChannel, o.textChannel with
    | some vc, some tc =>
      if p.connectionState = "connecting" then Except.ok (p, [])
      else
        Except.ok
          ({ p with
               connectionState := "connecting"
               voiceChannel := some vc
               textChannel := some tc },
           [Cmd.gatewayVoiceJoin o.guildId (some vc)])
    | _, _ => Except.error "Missing required options: guildId, voiceChannel, textChannel"

/-- TuneLink.createPlayer: construct the Player, register it, connect it.
On a connect error the unconnected player stays registered (the source
registers before connecting). -/
def createPlayer (pool : Pool) (n : NodeInfo) (o : PlayerOptions) :
    Pool × Except String (PlayerState × List Cmd × List Ev) :=
  let p0 := newPlayer o n.name
  match playerConnect o p0 with
  | Except.error e =>
    ({ pool with players := setPlayer o.guildId p0 pool.players }, Except.error e)
  | Except.ok (p1, cmds) =>
    ({ pool with players := setPlayer o.guildId p1 pool.players },
     Except.ok (p1, cmds, [Ev.playerCreate o.guildId]))

/-- TuneLink.createConnection: return the existing player for the tenant
unchanged, else select a node (region hint first, falling back to the
least-used node) and create a player on it. -/
def createConnection (pool : Pool) (o : PlayerOptions) :
    Pool × Except String (PlayerState × List Cmd × List Ev) :=
  if pool.initiated = false then
    (pool, Except.error "You have to initialize TuneLink in your ready event")
  else
    match findPlayer o.guildId pool.players with
    | some p => (pool, Except.ok (p, [], []))
    | none =>
      if leastUsedNodes pool.nodes = [] then (pool, Except.error "No nodes are available")
      else
        let node :=
          match o.region with
          | some r => getBestNodeForRegion pool.nodes r
          | none => (leastUsedNodes pool.nodes).head?
        match node with
        | none => (pool, Except.error "No nodes are available")
        | some n => createPlayer pool n o

/-- A deferred resume scheduled by the failover handler: the freshly
created player, the remembered position, and the retry budget of the
waitForConnectionAndPlay poll loop. -/
structure PendingResume where
  player : PlayerState
  position : Int
  retries : Nat
  deriving DecidableEq, Repr

/-- The options object built in _handleNodeDisconnect as
spread of the saved snapshot with guildId/textChannel/voiceChannel/deaf:
the Player constructor reads loop from the snapshot but finds no
defaultVolume, autoResume, mute or multipleTrackHistory keys there. -/
def failoverOptions (g : String) (tc vc : String) (deaf : Bool) (st : PlayerSnapshot) :
    PlayerOptions :=
  { guildId := g
    textChannel := some tc
    voiceChannel := some vc
    deaf := deaf
    loop := some st.loop }

/-- The waitForConnectionAndPlay closure in _handleNodeDisconnect: poll
the player connected flag (conn gives the flag at each poll tick) every
250 ms; once connected issue play at the saved position; when the retry
budget runs out give up with a diagnostic. -/
def waitForConnectionAndPlay (conn : Nat → Bool) (pos : Int) (p : PlayerState) :
    Nat → Nat → Option PStep
  | k, retries =>
    if conn k then Player.play pos { p with connected := true }
    else
      match retries with
      | 0 => some { state := p
                    evs := [Ev.debug "Failover: Player did not connect in time, could not resume playback."] }
      | r + 1 => waitForConnectionAndPlay conn pos p (k + 1) r

/-- TuneLink._handleNodeDisconnect: for every player bound to the lost
node, find a backup (connected, not the lost node) among the least-used
nodes; when one exists, snapshot the player, destroy it, create a new
player on the backup from the snapshot-derived options, connect it (the
explicit second connect call is a no-op because createPlayer already put
it in the connecting state) and, when a current track was saved, schedule
the deferred waitForConnectionAndPlay with a budget of 20 retries. -/
def handleNodeDisconnect (pool : Pool) (lostName : String) :
    Pool × List Cmd × List Ev × List PendingResume :=
  pool.players.foldl
    (fun acc gp =>
      let (pl, cmds, evs, pends) := acc
      let (_g, p) := gp
      if p.node ≠ lostName then acc
      else
        match (leastUsedNodes pl.nodes).find? (fun n => n.name ≠ lostName && n.connected) with
        | none =>
          (pl, cmds, evs ++ [Ev.debug "No backup node available"], pends)
        | some b =>
          let st := p.toJSON
          match p.voiceChannel, p.textChannel with
          | some vc, some tc =>
            let pos : Int := if p.position ≠ 0 then p.position else 0
            let dstep := Player.destroy p
            let o := failoverOptions p.guildId tc vc p.deaf st
            match createPlayer pl b o with
            | (pl2, Except.ok (np, cmds2, evs2)) =>
              match playerConnect o np with
              | Except.ok (np2, cmds3) =>
                let pend := if st.current.isSome then [PendingResume.mk np2 pos 20] else []
                (pl2, cmds ++ dstep.cmds ++ cmds2 ++ cmds3, evs ++ evs2, pends ++ pend)
              | Except.error _ =>
                (pl2, cmds ++ dstep.cmds ++ cmds2, evs ++ evs2, pends)
            | (pl2, Except.error _) =>
              (pl2, cmds ++ dstep.cmds, evs, pends)
          | _, _ =>
            (pl, cmds, evs ++ [Ev.debug "Failover aborted: missing guildId, voiceChannel, or textChannel"], pends))
    (pool, [], [], [])

/-- TuneLink.savePlayersState: serialize every player that has a current
track or a nonempty queue. -/
def savePlayersState (pool : Pool) : List (String × PlayerSnapshot) :=
  (pool.players.filter (fun gp => gp.2.current.isSome || !gp.2.queue.isEmpty)).map
    (fun gp => (gp.1, gp.2.toJSON))

/-- The per-entry restore step of TuneLink.loadPlayersState: rebuild the
player from its snapshot, then (when auto-resume is enabled for it) run
saveAutoResumeState, which re-stamps the auto-resume position from the
restored position. -/
def loadOnePlayer (nodeName : String) (d : PlayerSnapshot) : PlayerState :=
  let p := Player.fromJSON nodeName d
  if p.autoResumeEnabled then { p with lastPosition := p.position } else p

/-- One iteration of the TuneLink.loadPlayersState loop: pick the current
least-used node (skipping the entry when none is connected) and register
the restored player, counting it. -/
def loadStep (acc : Pool × Nat) (gd : String × PlayerSnapshot) : Pool × Nat :=
  match (leastUsedNodes acc.1.nodes).head? with
  | none => acc
  | some n =>
    ({ acc.1 with players := setPlayer gd.1 (loadOnePlayer n.name gd.2) acc.1.players },
     acc.2 + 1)

/-- TuneLink.loadPlayersState: restore every saved tenant in order;
returns the pool and the loaded count. -/
def loadPlayersState (pool : Pool) (data : List (String × PlayerSnapshot)) : Pool × Nat :=
  data.foldl loadStep (pool, 0)

/-- EngineConnection reconnect bookkeeping (Node.js): the attempt counter
(initialized to 1 by the constructor), whether a reconnect timer is
scheduled, and the connected flag. -/
structure NodeConn where
  reconnectAttempted : Nat
  pending : Bool
  connected : Bool
  deriving DecidableEq, Repr

/-- The protocol-level happenings that drive the reconnect logic: the
socket closing, the scheduled reconnect timer firing, the socket opening. -/
inductive NodeEvent
  | wsClose
  | timerFire
  | wsOpen
  deriving DecidableEq, Repr

/-- One step of the reconnect state machine. Node.close marks the node
disconnected and, while the attempt counter has not passed reconnectTries,
(re)schedules the reconnect timer; when the timer fires, Node.reconnect
increments the counter and calls connect (the returned Nat counts that
connect call); Node.open marks connected. -/
def nodeStep (tries : Nat) (s : NodeConn) : NodeEvent → NodeConn × Nat
  | NodeEvent.wsClose =>
    ({ s with
         connected := false
         pending := if s.reconnectAttempted ≤ tries then true else s.pending }, 0)
  | NodeEvent.timerFire =>
    if s.pending then
      ({ s with pending := false, reconnectAttempted := s.reconnectAttempted + 1 }, 1)
    else (s, 0)
  | NodeEvent.wsOpen => ({ s with connected := true }, 0)

/-- Run the reconnect state machine over a sequence of happenings,
counting the automatic connect calls. -/
def nodeRun (tries : Nat) (s : NodeConn) : List NodeEvent → NodeConn × Nat
  | [] => (s, 0)
  | e :: evs =>
    let r1 := nodeStep tries s e
    let r2 := nodeRun tries r1.1 evs
    (r2.1, r1.2 + r2.2)

/-- Node constructor state: reconnectAttempted starts at 1, no timer, not
connected. -/
def nodeInit : NodeConn :=
  { reconnectAttempted := 1, pending := false, connected := false }

/-- A stats frame as ingested by Node.message (op stats). Numeric fields
are JS numbers, modelled as rationals; the session counters and the core
count are integers in the protocol. -/
structure Memory where
  free : Rat
  used : Rat
  allocated : Rat
  reservable : Rat
  deriving DecidableEq, Repr

structure Cpu where
  cores : Nat
  systemLoad : Rat
  lavalinkLoad : Rat
  deriving DecidableEq, Repr

structure FrameStats where
  sent : Rat
  nulled : Rat
  deficit : Rat
  deriving DecidableEq, Repr

structure Stats where
  players : Nat
  playingPlayers : Nat
  memory : Memory
  cpu : Cpu
  frameStats : FrameStats
  deriving DecidableEq, Repr

/-- JS Math.round on a finite number: floor (x + 1/2). -/
def jsRound (q : Rat) : Int := Int.floor (q + 1/2)

/-- The cores divisor of Node.js: this.stats.cpu.cores with a zero value
replaced by 1 (the JS or-default cores or 1). -/
def coresDenom (c : Nat) : Rat := ((if c = 0 then 1 else c : Nat) : Rat)

/-- Node.penalties: the deficit contribution is only added when the
deficit is truthy (nonzero). -/
def Node.penalties (s : Stats) : Rat :=
  (s.playingPlayers : Rat) * 1
    + (s.cpu.systemLoad / coresDenom s.cpu.cores) * 10
    + (if s.frameStats.deficit ≠ 0 then ((jsRound (s.frameStats.deficit * 2.5) : Int) : Rat) else 0)
    + (s.players : Rat)

/-- The health snapshot returned by Node.getHealthStatus. -/
structure Health where
  connected : Bool
  ping : Rat
  averagePing : Rat
  penalties : Rat
  players : Nat
  playingPlayers : Nat
  cpuLoad : Rat
  memoryUsage : Rat
  deriving DecidableEq, Repr

/-- Node.getHealthStatus: pure read of the cached stats frame, last ping
and ping history (uptime omitted: wall-clock only). -/
def Node.getHealthStatus (connected : Bool) (s : Stats) (lastPing : Rat)
    (pingHistory : List Rat) : Health :=
  { connected := connected
    ping := lastPing
    averagePing :=
      if pingHistory.isEmpty then 0
      else (pingHistory.foldl (fun a b => a + b) 0) / (pingHistory.length : Rat)
    penalties := Node.penalties s
    players := s.players
    playingPlayers := s.playingPlayers
    cpuLoad := s.cpu.systemLoad / coresDenom s.cpu.cores
    memoryUsage :=
      s.memory.used / (if s.memory.allocated = 0 then 1 else s.memory.allocated) * 100 }

/-- TuneLink.calculateNodeScore. -/
def calculateNodeScore (h : Health) : Rat :=
  0 + h.penalties * 10 + h.cpuLoad * 100 + h.memoryUsage * 0.5 + h.ping * 0.1
    + (h.players : Rat) * 2 + (h.playingPlayers : Rat) * 5

/-- Penalty formula written from the claim text: playingSessions times 1
plus cpuLoad over max of cores and 1 times 10 plus round of frameDeficit
times 2.5 plus totalSessions. -/
def penaltyFormulaSpec (s : Stats) : Rat :=
  (s.playingPlayers : Rat) * 1
    + (s.cpu.systemLoad / ((max s.cpu.cores 1 : Nat) : Rat)) * 10
    + ((jsRound (s.frameStats.deficit * 2.5) : Int) : Rat)
    + (s.players : Rat)

/-- Score formula written from the claim text, with memoryUsagePct the
used over allocated memory as a percentage. -/
def scoreFormulaSpec (s : Stats) (ping : Rat) : Rat :=
  penaltyFormulaSpec s * 10
    + (s.cpu.systemLoad / ((max s.cpu.cores 1 : Nat) : Rat)) * 100
    + (s.memory.used / s.memory.allocated * 100) * 0.5
    + ping * 0.1
    + (s.players : Rat) * 2
    + (s.playingPlayers : Rat) * 5

/-! Helper lemmas and sample states. -/

/-- A sample session used by concrete witnesses. -/
def basePlayer : PlayerState :=
  newPlayer { guildId := "g", textChannel := some "t", voiceChannel := some "v" } "A"

lemma jsRound_zero : jsRound 0 = 0 := by
  unfold jsRound
  norm_num [Int.floor_eq_zero_iff]

lemma coresDenom_eq_max (c : Nat) : coresDenom c = ((max c 1 : Nat) : Rat) := by
  unfold coresDenom
  rcases Nat.eq_zero_or_pos c with h0 | h0
  · simp [h0]
  · rw [if_neg (Nat.pos_iff_ne_zero.mp h0), Nat.max_eq_left h0]

lemma penalties_eq_spec (s : Stats) : Node.penalties s = penaltyFormulaSpec s := by
  unfold Node.penalties penaltyFormulaSpec
  rw [coresDenom_eq_max]
  by_cases hd : s.frameStats.deficit = 0
  · rw [if_neg (by simp [hd])]
    rw [hd]
    norm_num [jsRound_zero]
  · rw [if_pos hd]

lemma setVolume_ok (v : Int) (p : PlayerState) (h0 : ¬(v < 0 ∨ v > 1000)) :
    Player.setVolume v p =
      Except.ok
        (let s := Player.queueUpdate { volume := some v } p
         { s with state := { s.state with volume := v } }) := by
  unfold Player.setVolume
  rw [if_neg h0]

/-! Claim theorems. -/

/-- C2: for every ingested stats frame (with nonzero allocated memory, so
that the memory percentage of the claim is defined), the derived penalty
and the derived score agree with the formulas stated in the claim. -/
theorem c2_score_formula (s : Stats) (connected : Bool) (ping : Rat) (hist : List Rat)
    (h : s.memory.allocated ≠ 0) :
    Node.penalties s = penaltyFormulaSpec s ∧
    calculateNodeScore (Node.getHealthStatus connected s ping hist) = scoreFormulaSpec s ping := by
  refine ⟨penalties_eq_spec s, ?_⟩
  unfold calculateNodeScore Node.getHealthStatus scoreFormulaSpec
  simp only
  rw [penalties_eq_spec, coresDenom_eq_max, if_neg h]
  ring

/-- C2 witness: a concrete stats frame on which the formulas evaluate. -/
theorem c2_score_formula_witness :
    ({ players := 7, playingPlayers := 3
       memory := { free := 0, used := 512, allocated := 1024, reservable := 0 }
       cpu := { cores := 4, systemLoad := 2, lavalinkLoad := 0 }
       frameStats := { sent := 0, nulled := 0, deficit := 3 } } : Stats).memory.allocated ≠ 0
    ∧ Node.penalties
        { players := 7, playingPlayers := 3
          memory := { free := 0, used := 512, allocated := 1024, reservable := 0 }
          cpu := { cores := 4, systemLoad := 2, lavalinkLoad := 0 }
          frameStats := { sent := 0, nulled := 0, deficit := 3 } }
      = penaltyFormulaSpec
        { players := 7, playingPlayers := 3
          memory := { free := 0, used := 512, allocated := 1024, reservable := 0 }
          cpu := { cores := 4, systemLoad := 2, lavalinkLoad := 0 }
          frameStats := { sent := 0, nulled := 0, deficit := 3 } } := by
  refine ⟨by norm_num, ?_⟩
  exact (c2_score_formula _ true 40 [40] (by norm_num)).1

/-- C4: the recovery play path (restart) raises the pending-resume flag
and reissues the last track; the next track-start frame then yields an
autoResume event, no trackStart event, and clears the flag; a track-start
frame with the flag clear yields a trackStart event. -/
theorem c4_pending_resume (p : PlayerState) (cur : Track)
    (hc : p.current = some cur) (hconn : p.connected = true) :
    (Player.restart p).state.pendingAutoResume = true
    ∧ (∃ u, (Player.restart p).cmds = [Cmd.updatePlayer u] ∧ u.track = some (some cur.track))
    ∧ (∃ s, Player.handleEvent "TrackStartEvent" "" (Player.restart p).state = some s
        ∧ s.evs = [Ev.autoResume (Player.restart p).state.position]
        ∧ Ev.trackStart ∉ s.evs
        ∧ s.state.pendingAutoResume = false)
    ∧ (∀ q : PlayerState, q.pendingAutoResume = false →
        ∃ s2, Player.handleEvent "TrackStartEvent" "" q = some s2
          ∧ s2.evs = [Ev.trackStart]) := by
  have hr : Player.restart p =
      { state := { p with
                     pendingAutoResume := true
                     position := if p.lastPosition ≠ 0 then p.lastPosition else p.position
                     playing := ¬p.paused }
        cmds := [Cmd.updatePlayer
          { track := some (some cur.track)
            position := some (if p.lastPosition ≠ 0 then p.lastPosition else p.position)
            paused := some p.paused
            volume := some p.volume }] } := by
    simp [Player.restart, hc, hconn]
  refine ⟨by rw [hr], ⟨_, by rw [hr], rfl⟩, ?_, ?_⟩
  · rw [hr]
    exact ⟨_, rfl, rfl, by simp, rfl⟩
  · intro q hq
    refine ⟨Player.trackStart q, ?_, rfl⟩
    simp [Player.handleEvent, hq]

/-- C4 witness: a concrete connected session with a current track. -/
theorem c4_pending_resume_witness :
    ({ basePlayer with connected := true, current := some { track := "enc" } } : PlayerState).current
        = some { track := "enc" }
    ∧ (Player.restart { basePlayer with connected := true, current := some { track := "enc" } }).state.pendingAutoResume = true := by
  refine ⟨rfl, ?_⟩
  exact (c4_pending_resume _ { track := "enc" } rfl rfl).1

/-- C5: two volume changes inside one coalescing window produce no
immediate command, and the window flush sends exactly one update whose
volume field is the later value. -/
theorem c5_volume_coalescing (p : PlayerState)
    (hq : p.updateQueue = []) (hb : p.batchUpdates = true) :
    ∃ s1 s2,
      Player.setVolume 10 p = Except.ok s1
      ∧ Player.setVolume 20 s1.state = Except.ok s2
      ∧ s1.cmds = [] ∧ s2.cmds = []
      ∧ (Player.processUpdateQueue s2.state).cmds
          = [Cmd.updatePlayer { volume := some 20 }]
      ∧ (Player.processUpdateQueue s2.state).state.updateQueue = [] := by
  have h10 : ¬((10 : Int) < 0 ∨ (10 : Int) > 1000) := by norm_num
  have h20 : ¬((20 : Int) < 0 ∨ (20 : Int) > 1000) := by norm_num
  refine ⟨_, _, setVolume_ok 10 p h10, setVolume_ok 20 _ h20, ?_, ?_, ?_, ?_⟩ <;>
    simp [Player.queueUpdate, Player.processUpdateQueue,
      UpdateData.assign, pickField, hq, hb]

/-- C5 witness: the concrete base session. -/
theorem c5_volume_coalescing_witness :
    ∃ s1 s2,
      Player.setVolume 10 basePlayer = Except.ok s1
      ∧ Player.setVolume 20 s1.state = Except.ok s2
      ∧ s1.cmds = [] ∧ s2.cmds = []
      ∧ (Player.processUpdateQueue s2.state).cmds
          = [Cmd.updatePlayer { volume := some 20 }]
      ∧ (Player.processUpdateQueue s2.state).state.updateQueue = [] :=
  c5_volume_coalescing basePlayer rfl rfl

/-- A connected session with one buffered volume update in flight. -/
def bufferedPlayer : PlayerState :=
  { basePlayer with
      connected := true
      connectionState := "connected"
      playing := true
      timerActive := true
      updateQueue := [{ volume := some 50 }] }

/-- C6 counterexample: with a buffered update in flight, stop sends no
command at all (its null-track update only joins the buffer), and destroy
sends the gateway leave and the destroy command but never flushes the
buffered volume update; so neither urgent operation bypasses the buffer
in the way the claim states. -/
theorem c6_counterexample :
    (Player.stop bufferedPlayer).cmds = []
    ∧ (Player.stop bufferedPlayer).state.updateQueue
        = [{ volume := some 50 }, { track := some none }]
    ∧ (Player.destroy bufferedPlayer).cmds
        = [Cmd.gatewayVoiceJoin "g" none, Cmd.destroyPlayer] := by
  refine ⟨rfl, rfl, rfl⟩

/-- C6 amended: stop enqueues its null-track command through the
coalescing buffer (no immediate send); destroy cancels the flush timer,
discards the buffered updates without sending them, and issues its
destroy command immediately as the last command. -/
theorem c6_urgent_amended (p : PlayerState) (hb : p.batchUpdates = true) :
    (Player.stop p).cmds = []
    ∧ (Player.stop p).state.updateQueue = p.updateQueue ++ [{ track := some none }]
    ∧ (Player.destroy p).state.updateQueue = []
    ∧ (Player.destroy p).state.timerActive = false
    ∧ (Player.destroy p).cmds.getLast? = some Cmd.destroyPlayer
    ∧ ∀ u, Cmd.updatePlayer u ∉ (Player.destroy p).cmds := by
  refine ⟨?_, ?_, ?_, ?_, ?_, ?_⟩ <;>
    simp [Player.stop, Player.destroy, Player.disconnect, Player.pause,
      Player.queueUpdate, hb] <;>
    split_ifs <;>
    simp [Player.pause, Player.queueUpdate, hb]

/-- C6 amended witness: the concrete buffered session. -/
theorem c6_urgent_amended_witness :
    (Player.stop bufferedPlayer).cmds = []
    ∧ (Player.stop bufferedPlayer).state.updateQueue
        = bufferedPlayer.updateQueue ++ [{ track := some none }]
    ∧ (Player.destroy bufferedPlayer).state.updateQueue = []
    ∧ (Player.destroy bufferedPlayer).state.timerActive = false
    ∧ (Player.destroy bufferedPlayer).cmds.getLast? = some Cmd.destroyPlayer
    ∧ ∀ u, Cmd.updatePlayer u ∉ (Player.destroy bufferedPlayer).cmds :=
  c6_urgent_amended bufferedPlayer rfl

/-- Bound on the automatic reconnect counter: from any state whose pending
timer respects the budget, the run makes at most tries plus one minus the
current attempt number further connect calls. -/
lemma nodeRun_bound (tries : Nat) :
    ∀ evs (s : NodeConn), (s.pending = true → s.reconnectAttempted ≤ tries) →
      (nodeRun tries s evs).2 ≤ tries + 1 - s.reconnectAttempted := by
  intro evs
  induction evs with
  | nil => intro s _; simp [nodeRun]
  | cons e rest ih =>
    intro s hs
    cases e with
    | wsClose =>
      have h1 := ih { s with
          connected := false
          pending := if s.reconnectAttempted ≤ tries then true else s.pending }
        (by intro hp; by_cases hle : s.reconnectAttempted ≤ tries
            · exact hle
            · simp [if_neg hle] at hp; exact hs hp)
      simpa [nodeRun, nodeStep] using h1
    | timerFire =>
      by_cases hp : s.pending = true
      · have hle : s.reconnectAttempted ≤ tries := hs hp
        have h1 := ih { s with pending := false, reconnectAttempted := s.reconnectAttempted + 1 }
          (by intro hq; simp at hq)
        simp only [nodeRun, nodeStep, hp, if_pos] at *
        omega
      · have hp2 : s.pending = false := by
          cases h : s.pending
          · rfl
          · exact absurd h hp
        have h1 := ih s hs
        simp [nodeRun, nodeStep, hp2] at *
        omega
    | wsOpen =>
      have h1 := ih { s with connected := true } (fun hp => hs hp)
      simpa [nodeRun, nodeStep] using h1

/-- Once the reconnect budget is exhausted and no timer is pending, no
further automatic connect call ever happens. -/
lemma nodeRun_exhausted (tries : Nat) :
    ∀ evs (s : NodeConn), tries < s.reconnectAttempted → s.pending = false →
      (nodeRun tries s evs).2 = 0 := by
  intro evs
  induction evs with
  | nil => intro s _ _; simp [nodeRun]
  | cons e rest ih =>
    intro s hlt hp
    cases e with
    | wsClose =>
      have hnle : ¬s.reconnectAttempted ≤ tries := by omega
      have h1 := ih { s with
          connected := false
          pending := if s.reconnectAttempted ≤ tries then true else s.pending }
        (by simpa using hlt) (by simp [if_neg hnle, hp])
      simpa [nodeRun, nodeStep] using h1
    | timerFire =>
      have h1 := ih s hlt hp
      simp [nodeRun, nodeStep, hp] at *
      omega
    | wsOpen =>
      have h1 := ih { s with connected := true } (by simpa using hlt) (by simpa using hp)
      simpa [nodeRun, nodeStep] using h1

/-- C8: over any sequence of close/timer/open happenings the number of
automatic connect calls never exceeds reconnectTries, and from any
exhausted state (counter past the budget, no timer pending) no further
automatic connect call occurs. -/
theorem c8_reconnect_budget (tries : Nat) (evs : List NodeEvent) :
    (nodeRun tries nodeInit evs).2 ≤ tries
    ∧ ∀ (s : NodeConn) (evs2 : List NodeEvent),
        tries < s.reconnectAttempted → s.pending = false →
        (nodeRun tries s evs2).2 = 0 := by
  constructor
  · have h := nodeRun_bound tries evs nodeInit (by intro hp; simp [nodeInit] at hp)
    simpa [nodeInit] using h
  · intro s evs2 h1 h2
    exact nodeRun_exhausted tries evs2 s h1 h2

/-- C8 witness: three tries, four close/fire rounds plus a stray timer
fire; at most three automatic connects happen, and a concrete exhausted
state yields none. -/
theorem c8_reconnect_budget_witness :
    (nodeRun 3 nodeInit
        [NodeEvent.wsClose, NodeEvent.timerFire, NodeEvent.wsClose, NodeEvent.timerFire,
         NodeEvent.wsClose, NodeEvent.timerFire, NodeEvent.wsClose, NodeEvent.timerFire,
         NodeEvent.timerFire]).2 ≤ 3
    ∧ (nodeRun 3 { reconnectAttempted := 4, pending := false, connected := false }
        [NodeEvent.wsClose, NodeEvent.timerFire]).2 = 0 := by
  refine ⟨(c8_reconnect_budget 3 _).1, ?_⟩
  exact (c8_reconnect_budget 3 []).2 _ _ (by decide) rfl

/-- C10: createConnection is idempotent per tenant: when a player already
exists for the guild it is returned as is, the registry and pool are
unmodified, no command is sent and no event fires; and the result does
not depend on the node registry at all (so no node selection happens). -/
theorem c10_createConnection_idempotent (pool : Pool) (o : PlayerOptions) (p : PlayerState)
    (hinit : pool.initiated = true)
    (hex : findPlayer o.guildId pool.players = some p) :
    createConnection pool o = (pool, Except.ok (p, [], []))
    ∧ ∀ nodes2, createConnection { pool with nodes := nodes2 } o
        = ({ pool with nodes := nodes2 }, Except.ok (p, [], [])) := by
  constructor
  · simp [createConnection, hinit, hex]
  · intro nodes2
    simp [createConnection, hinit, hex]

/-- C10 witness: a pool that already holds the base player, with an empty
node registry. -/
theorem c10_createConnection_idempotent_witness :
    createConnection
        { initiated := true, nodes := [], players := [("g", basePlayer)] }
        { guildId := "g", textChannel := some "t", voiceChannel := some "v" }
      = ({ initiated := true, nodes := [], players := [("g", basePlayer)] },
         Except.ok (basePlayer, [], [])) :=
  (c10_createConnection_idempotent
    { initiated := true, nodes := [], players := [("g", basePlayer)] }
    { guildId := "g", textChannel := some "t", voiceChannel := some "v" }
    basePlayer rfl (by simp [findPlayer])).1

/-- The state of a freshly constructed player right after its initial
connect call moved it to the connecting state. -/
def connectingPlayer (o : PlayerOptions) (nodeName vc tc : String) : PlayerState :=
  { newPlayer o nodeName with
      connectionState := "connecting"
      voiceChannel := some vc
      textChannel := some tc }

lemma firstMinNode_eq_none {l : List NodeInfo} : firstMinNode l = none ↔ l = [] := by
  cases l with
  | nil => simp [firstMinNode]
  | cons n ns =>
    simp only [firstMinNode]
    cases firstMinNode ns with
    | none => simp
    | some m =>
      constructor
      · intro h
        by_cases hle : n.score ≤ m.score <;> simp [hle] at h
      · intro h
        exact absurd h (by simp)

lemma stableSortScore_head (l : List NodeInfo) :
    (stableSortScore l).head? = firstMinNode l := by
  induction l with
  | nil => rfl
  | cons n ns ih =>
    simp only [stableSortScore, firstMinNode]
    cases h : stableSortScore ns with
    | nil =>
      have hns : firstMinNode ns = none := by rw [← ih, h]; rfl
      rw [hns]
      simp [insertNode]
    | cons m rest =>
      have hns : firstMinNode ns = some m := by rw [← ih, h]; rfl
      rw [hns]
      simp only [insertNode]
      by_cases hlt : m.score < n.score
      · rw [if_pos hlt, if_neg (not_le.mpr hlt)]
        rfl
      · rw [if_neg hlt, if_pos (not_lt.mp hlt)]
        rfl

lemma firstMinNode_isMin :
    ∀ (l : List NodeInfo) (n : NodeInfo), firstMinNode l = some n →
      n ∈ l ∧ ∀ m ∈ l, n.score ≤ m.score := by
  intro l
  induction l with
  | nil => intro n h; simp [firstMinNode] at h
  | cons x xs ih =>
    intro n h
    simp only [firstMinNode] at h
    cases hxs : firstMinNode xs with
    | none =>
      rw [hxs] at h
      have hnil : xs = [] := firstMinNode_eq_none.mp hxs
      simp at h
      subst h hnil
      simp
    | some m =>
      rw [hxs] at h
      obtain ⟨hm, hmin⟩ := ih m hxs
      by_cases hle : x.score ≤ m.score
      · simp only [hle, if_true, Option.some.injEq] at h
        subst h
        refine ⟨List.mem_cons_self _ _, ?_⟩
        intro k hk
        rcases List.mem_cons.mp hk with hk | hk
        · subst hk; exact le_refl _
        · exact le_trans hle (hmin k hk)
      · simp only [hle, if_false, Option.some.injEq] at h
        subst h
        refine ⟨List.mem_cons_of_mem _ hm, ?_⟩
        intro k hk
        rcases List.mem_cons.mp hk with hk | hk
        · subst hk; exact le_of_lt (not_le.mp hle)
        · exact hmin k hk

lemma firstMinNode_first :
    ∀ (l : List NodeInfo) (n : NodeInfo), firstMinNode l = some n →
      ∃ i, l.get? i = some n
        ∧ ∀ j m, j < i → l.get? j = some m → n.score < m.score := by
  intro l
  induction l with
  | nil => intro n h; simp [firstMinNode] at h
  | cons x xs ih =>
    intro n h
    simp only [firstMinNode] at h
    cases hxs : firstMinNode xs with
    | none =>
      rw [hxs] at h
      simp at h
      subst h
      exact ⟨0, rfl, fun j m hj _ => absurd hj (Nat.not_lt_zero j)⟩
    | some m =>
      rw [hxs] at h
      by_cases hle : x.score ≤ m.score
      · simp only [hle, if_true, Option.some.injEq] at h
        subst h
        exact ⟨0, rfl, fun j k hj _ => absurd hj (Nat.not_lt_zero j)⟩
      · simp only [hle, if_false, Option.some.injEq] at h
        subst h
        obtain ⟨i, hi, hstrict⟩ := ih m hxs
        refine ⟨i + 1, by simpa using hi, ?_⟩
        intro j k hj hk
        cases j with
        | zero =>
          simp at hk
          subst hk
          exact not_le.mp hle
        | succ j0 =>
          exact hstrict j0 k (Nat.lt_of_succ_lt_succ hj) (by simpa using hk)

/-- C1: creating a session with no region hint picks exactly the
earliest-registered connected node of minimal cached score: the selected
node is connected, its score is a lower bound over all connected nodes,
every connected node registered before it has strictly greater score, and
the created player is bound to it. -/
theorem c1_lowest_score_selection (pool : Pool) (o : PlayerOptions) (vc tc : String)
    (hinit : pool.initiated = true)
    (hnew : findPlayer o.guildId pool.players = none)
    (hreg : o.region = none)
    (hvc : o.voiceChannel = some vc) (htc : o.textChannel = some tc)
    (hconn : pool.nodes.filter (fun n => n.connected) ≠ []) :
    ∃ n, firstMinNode (pool.nodes.filter (fun n => n.connected)) = some n
      ∧ n.connected = true
      ∧ (∀ m ∈ pool.nodes, m.connected = true → n.score ≤ m.score)
      ∧ (∃ i, (pool.nodes.filter (fun x => x.connected)).get? i = some n
          ∧ ∀ j m, j < i → (pool.nodes.filter (fun x => x.connected)).get? j = some m →
              n.score < m.score)
      ∧ ∃ pool2 cmds evs p1,
          createConnection pool o = (pool2, Except.ok (p1, cmds, evs))
            ∧ p1.node = n.name := by
  set L := pool.nodes.filter (fun n => n.connected) with hL
  obtain ⟨n, hn⟩ : ∃ n, firstMinNode L = some n := by
    cases h : firstMinNode L with
    | none => exact absurd (firstMinNode_eq_none.mp h) hconn
    | some n => exact ⟨n, rfl⟩
  obtain ⟨hmem, hmin⟩ := firstMinNode_isMin L n hn
  have hnc : n.connected = true := (List.mem_filter.mp hmem).2
  refine ⟨n, hn, hnc, ?_, firstMinNode_first L n hn, ?_⟩
  · intro m hm hmc
    exact hmin m (List.mem_filter.mpr ⟨hm, hmc⟩)
  · have hlu : leastUsedNodes pool.nodes ≠ [] := by
      intro hnil
      rw [leastUsedNodes, ← hL] at hnil
      have : firstMinNode L = none := by rw [← stableSortScore_head, hnil]; rfl
      rw [hn] at this
      exact absurd this (by simp)
    have hhead : (leastUsedNodes pool.nodes).head? = some n := by
      rw [leastUsedNodes, ← hL, stableSortScore_head, hn]
    have hcc : createConnection pool o = createPlayer pool n o := by
      simp [createConnection, hinit, hnew, hreg, hlu, hhead]
    have hpcon : playerConnect o (newPlayer o n.name) =
        Except.ok
          (connectingPlayer o n.name vc tc,
           [Cmd.gatewayVoiceJoin o.guildId (some vc)]) := by
      unfold playerConnect connectingPlayer newPlayer
      rw [hvc, htc]
      simp
    have key : createConnection pool o =
        ({ pool with players :=
             setPlayer o.guildId (connectingPlayer o n.name vc tc) pool.players },
         Except.ok
           (connectingPlayer o n.name vc tc,
            [Cmd.gatewayVoiceJoin o.guildId (some vc)],
            [Ev.playerCreate o.guildId])) := by
      rw [hcc]
      simp [createPlayer, hpcon]
    exact ⟨_, _, _, _, key, rfl⟩

/-- C1 witness: three connected nodes, the first two tied on the minimal
score; the earliest-registered one (n1) is selected. -/
theorem c1_lowest_score_selection_witness :
    ∃ n, firstMinNode
        (([{ name := "n1", connected := true, regions := [], score := 5 },
           { name := "n2", connected := true, regions := [], score := 5 },
           { name := "n3", connected := true, regions := [], score := 7 }] :
            List NodeInfo).filter (fun n => n.connected)) = some n
      ∧ n.connected = true
      ∧ (∀ m ∈ ([{ name := "n1", connected := true, regions := [], score := 5 },
           { name := "n2", connected := true, regions := [], score := 5 },
           { name := "n3", connected := true, regions := [], score := 7 }] :
            List NodeInfo), m.connected = true → n.score ≤ m.score)
      ∧ (∃ i, (([{ name := "n1", connected := true, regions := [], score := 5 },
           { name := "n2", connected := true, regions := [], score := 5 },
           { name := "n3", connected := true, regions := [], score := 7 }] :
            List NodeInfo).filter (fun x => x.connected)).get? i = some n
          ∧ ∀ j m, j < i →
              (([{ name := "n1", connected := true, regions := [], score := 5 },
                 { name := "n2", connected := true, regions := [], score := 5 },
                 { name := "n3", connected := true, regions := [], score := 7 }] :
                  List NodeInfo).filter (fun x => x.connected)).get? j = some m →
              n.score < m.score)
      ∧ ∃ pool2 cmds evs p1,
          createConnection
              { initiated := true
                nodes := [{ name := "n1", connected := true, regions := [], score := 5 },
                          { name := "n2", connected := true, regions := [], score := 5 },
                          { name := "n3", connected := true, regions := [], score := 7 }]
                players := [] }
              { guildId := "g", textChannel := some "t", voiceChannel := some "v" }
            = (pool2, Except.ok (p1, cmds, evs))
            ∧ p1.node = n.name :=
  c1_lowest_score_selection
    { initiated := true
      nodes := [{ name := "n1", connected := true, regions := [], score := 5 },
                { name := "n2", connected := true, regions := [], score := 5 },
                { name := "n3", connected := true, regions := [], score := 7 }]
      players := [] }
    { guildId := "g", textChannel := some "t", voiceChannel := some "v" }
    "v" "t" rfl rfl rfl rfl rfl (by decide)

/-- A connected session looping its current track, with one more track
queued. -/
def loopTrackPlayer : PlayerState :=
  { basePlayer with
      loop := "track"
      connected := true
      connectionState := "connected"
      playing := true
      current := some { track := "tt" }
      queue := [some { track := "uu" }] }

/-- C7 counterexample: a track-end with reason REPLACED is not STOPPED,
yet the ended track is not reinserted at queue position 0 and playback
does not restart (queue and buffer untouched, no command, playing turns
false); so the claim fails for the REPLACED reason. -/
theorem c7_counterexample :
    (Player.trackEnd "REPLACED" loopTrackPlayer).map
        (fun s => (s.state.queue, s.state.current, s.state.updateQueue, s.cmds,
                   s.state.playing))
      = some ([some { track := "uu" }], some { track := "tt" }, [], [], false) := rfl

/-- C7 amended: with loop mode track and a connected transport, a
track-end whose reason is neither STOPPED nor REPLACED reinserts the
ended track at queue position 0 and immediately replays it: the same
track becomes current again, the queue is back to its previous contents,
playback is on, and the buffered outbound update carries that track at
position 0. -/
theorem c7_loop_track_amended (p : PlayerState) (t : Track) (reason : String)
    (hl : p.loop = "track") (hconn : p.connected = true) (hcur : p.current = some t)
    (hb : p.batchUpdates = true)
    (hr1 : reason ≠ "STOPPED") (hr2 : reason ≠ "REPLACED") :
    (Player.trackEnd reason p).map
        (fun s => (s.state.current, s.state.playing, s.state.queue, s.state.updateQueue,
                   s.cmds))
      = some (some t, true, p.queue,
              p.updateQueue ++ [{ track := some (some t.track), position := some 0 }],
              []) := by
  simp [Player.trackEnd, Player.addToPreviousTrack, Player.play, Player.queueUpdate,
    hl, hconn, hcur, hb, hr1, hr2]

/-- C7 amended witness: the loop-track session ends its track with reason
FINISHED. -/
theorem c7_loop_track_amended_witness :
    (Player.trackEnd "FINISHED" loopTrackPlayer).map
        (fun s => (s.state.current, s.state.playing, s.state.queue, s.state.updateQueue,
                   s.cmds))
      = some (some { track := "tt" }, true, loopTrackPlayer.queue,
              loopTrackPlayer.updateQueue
                ++ [{ track := some (some ({ track := "tt" } : Track).track), position := some 0 }],
              []) :=
  c7_loop_track_amended loopTrackPlayer { track := "tt" } "FINISHED"
    rfl rfl rfl rfl (by decide) (by decide)

lemma setPlayer_notMem (g : String) (p : PlayerState) :
    ∀ l, g ∉ l.map Prod.fst → setPlayer g p l = l ++ [(g, p)] := by
  intro l
  induction l with
  | nil => intro _; rfl
  | cons kq rest ih =>
    intro h
    obtain ⟨k, q⟩ := kq
    rw [List.map_cons, List.mem_cons] at h
    push_neg at h
    obtain ⟨h1, h2⟩ := h
    simp only [setPlayer, if_neg (Ne.symm h1)]
    rw [ih h2]
    simp

lemma load_fold_players :
    ∀ (data : List (String × PlayerSnapshot)) (pool : Pool) (k : Nat) (n : NodeInfo),
      (leastUsedNodes pool.nodes).head? = some n →
      (data.map Prod.fst).Nodup →
      (∀ g ∈ data.map Prod.fst, g ∉ pool.players.map Prod.fst) →
      (data.foldl loadStep (pool, k)).1.players
        = pool.players ++ data.map (fun gd => (gd.1, loadOnePlayer n.name gd.2)) := by
  intro data
  induction data with
  | nil => intro pool k n _ _ _; simp
  | cons gd rest ih =>
    intro pool k n hn hnd hdisj
    obtain ⟨g, d⟩ := gd
    have hgfresh : g ∉ pool.players.map Prod.fst := hdisj g (by simp)
    have hstep : loadStep (pool, k) (g, d)
        = ({ pool with players := pool.players ++ [(g, loadOnePlayer n.name d)] }, k + 1) := by
      simp only [loadStep, hn]
      rw [setPlayer_notMem g _ _ hgfresh]
    rw [List.foldl_cons, hstep]
    rw [List.map_cons] at hnd
    have hnd2 := hnd.of_cons
    have hgnot := (List.nodup_cons.mp hnd).1
    have h2 := ih { pool with players := pool.players ++ [(g, loadOnePlayer n.name d)] }
      (k + 1) n (by simpa using hn) hnd2 ?_
    · rw [h2]
      simp
    · intro g2 hg2
      simp only [List.map_append, List.mem_append]
      push_neg
      refine ⟨hdisj g2 (by simp [hg2]), ?_⟩
      simp only [List.map_cons]
      intro hc
      simp at hc
      exact hgnot (hc ▸ hg2)

lemma loadOne_toJSON_fields (nm : String) (p : PlayerState) :
    (loadOnePlayer nm p.toJSON).queue = p.queue
    ∧ (loadOnePlayer nm p.toJSON).current = p.current
    ∧ (loadOnePlayer nm p.toJSON).position = p.position := by
  unfold loadOnePlayer Player.fromJSON PlayerState.toJSON newPlayer
  by_cases h1 : p.autoResumeEnabled = true <;> by_cases h2 : p.position > 0 <;>
    simp [h1, h2]

/-- C9 counterexample: a pool whose only session is idle (no current
track, empty queue) serializes to an empty snapshot, so the restored pool
has an empty tenant set while the original tenant set is nonempty: the
round trip does not reproduce the same tenant set. -/
theorem c9_counterexample :
    savePlayersState
        { initiated := true
          nodes := [{ name := "B", connected := true, regions := [], score := 50 }]
          players := [("g1", basePlayer)] } = []
    ∧ (loadPlayersState
        { initiated := true
          nodes := [{ name := "B", connected := true, regions := [], score := 50 }]
          players := [] }
        (savePlayersState
          { initiated := true
            nodes := [{ name := "B", connected := true, regions := [], score := 50 }]
            players := [("g1", basePlayer)] })).1.players.map Prod.fst = []
    ∧ ({ initiated := true
         nodes := [{ name := "B", connected := true, regions := [], score := 50 }]
         players := [("g1", basePlayer)] } : Pool).players.map Prod.fst = ["g1"] :=
  ⟨rfl, rfl, rfl⟩

/-- C9 amended: save followed by load on a fresh pool (with a connected
node) reproduces exactly the tenants that had a current track or a
nonempty queue, and every restored session keeps its queue contents in
order, its current track, and its exact position. -/
theorem c9_roundtrip_amended (pool fresh : Pool) (n : NodeInfo)
    (hf : fresh.players = [])
    (hn : (leastUsedNodes fresh.nodes).head? = some n)
    (hnd : (pool.players.map Prod.fst).Nodup) :
    ((loadPlayersState fresh (savePlayersState pool)).1.players.map Prod.fst
        = (pool.players.filter
            (fun gp => gp.2.current.isSome || !gp.2.queue.isEmpty)).map Prod.fst)
    ∧ ∀ g p, (g, p) ∈ pool.players → (p.current.isSome || !p.queue.isEmpty) = true →
        ∃ q, (g, q) ∈ (loadPlayersState fresh (savePlayersState pool)).1.players
          ∧ q.queue = p.queue ∧ q.current = p.current ∧ q.position = p.position := by
  have hsavedkeys : (savePlayersState pool).map Prod.fst
      = (pool.players.filter
          (fun gp => gp.2.current.isSome || !gp.2.queue.isEmpty)).map Prod.fst := by
    unfold savePlayersState
    rw [List.map_map]
    rfl
  have hsub : List.Sublist
      ((pool.players.filter
        (fun gp => gp.2.current.isSome || !gp.2.queue.isEmpty)).map Prod.fst)
      (pool.players.map Prod.fst) :=
    List.Sublist.map Prod.fst (List.filter_sublist pool.players)
  have hsnd : ((savePlayersState pool).map Prod.fst).Nodup := by
    rw [hsavedkeys]
    exact List.Nodup.sublist hsub hnd
  have hload := load_fold_players (savePlayersState pool) fresh 0 n hn hsnd
    (by rw [hf]; simp)
  have hplayers : (loadPlayersState fresh (savePlayersState pool)).1.players
      = (pool.players.filter
          (fun gp => gp.2.current.isSome || !gp.2.queue.isEmpty)).map
          (fun gp => (gp.1, loadOnePlayer n.name gp.2.toJSON)) := by
    unfold loadPlayersState
    rw [hload, hf]
    unfold savePlayersState
    rw [List.map_map]
    rfl
  constructor
  · rw [hplayers, List.map_map]
    rfl
  · intro g p hmem hpred
    refine ⟨loadOnePlayer n.name p.toJSON, ?_, (loadOne_toJSON_fields n.name p).1,
      (loadOne_toJSON_fields n.name p).2.1, (loadOne_toJSON_fields n.name p).2.2⟩
    rw [hplayers]
    have hfil : (g, p) ∈ pool.players.filter
        (fun gp => gp.2.current.isSome || !gp.2.queue.isEmpty) :=
      List.mem_filter.mpr ⟨hmem, hpred⟩
    exact List.mem_map.mpr ⟨(g, p), hfil, rfl⟩

/-- C9 amended witness: one active and one idle session round trip. -/
theorem c9_roundtrip_amended_witness :
    ((loadPlayersState
        { initiated := true
          nodes := [{ name := "B", connected := true, regions := [], score := 50 }]
          players := [] }
        (savePlayersState
          { initiated := true
            nodes := [{ name := "B", connected := true, regions := [], score := 50 }]
            players := [("g1", basePlayer),
                        ("g2", { basePlayer with
                                   current := some { track := "enc" }
                                   position := 1234
                                   queue := [some { track := "next" }] })] })).1.players.map
        Prod.fst
      = (([("g1", basePlayer),
           ("g2", { basePlayer with
                      current := some { track := "enc" }
                      position := 1234
                      queue := [some { track := "next" }] })] :
            List (String × PlayerState)).filter
          (fun gp => gp.2.current.isSome || !gp.2.queue.isEmpty)).map Prod.fst)
    ∧ ∀ g p,
        (g, p) ∈ ([("g1", basePlayer),
                   ("g2", { basePlayer with
                              current := some { track := "enc" }
                              position := 1234
                              queue := [some { track := "next" }] })] :
                    List (String × PlayerState)) →
        (p.current.isSome || !p.queue.isEmpty) = true →
        ∃ q, (g, q) ∈ (loadPlayersState
            { initiated := true
              nodes := [{ name := "B", connected := true, regions := [], score := 50 }]
              players := [] }
            (savePlayersState
              { initiated := true
                nodes := [{ name := "B", connected := true, regions := [], score := 50 }]
                players := [("g1", basePlayer),
                            ("g2", { basePlayer with
                                       current := some { track := "enc" }
                                       position := 1234
                                       queue := [some { track := "next" }] })] })).1.players
          ∧ q.queue = p.queue ∧ q.current = p.current ∧ q.position = p.position :=
  c9_roundtrip_amended _ _
    { name := "B", connected := true, regions := [], score := 50 }
    rfl rfl (by decide)

/-- A mid-playback session bound to node A at position 30000. -/
def failoverPlayer : PlayerState :=
  { basePlayer with
      connected := true
      connectionState := "connected"
      playing := true
      position := 30000
      current := some { track := "enc1" }
      queue := [some { track := "enc2" }] }

/-- The pool at the moment node A is lost: A disconnected, B healthy. -/
def failoverPool : Pool :=
  { initiated := true
    nodes := [{ name := "A", connected := false, regions := [], score := 10 },
              { name := "B", connected := true, regions := [], score := 50 }]
    players := [("g", failoverPlayer)] }

/-- C3: evaluation of the failover path at the failing input. The handler
does schedule a deferred resume at position 30000 with a 20-retry budget
on backup node B, but the player it created has no current track and an
empty queue (the Player constructor ignores the saved queue/current), so
when the transport reports connected the reissued play sends no command
at all: playback is not resumed. -/
theorem c3_failover_loses_playback :
    ((handleNodeDisconnect failoverPool "A").2.2.2.map
        (fun pr => (pr.position, pr.retries, pr.player.node, pr.player.current,
                    pr.player.queue)))
      = [(30000, 20, "B", none, [])]
    ∧ ((handleNodeDisconnect failoverPool "A").2.2.2.map
        (fun pr => (waitForConnectionAndPlay (fun _ => true) pr.position pr.player 0
            pr.retries).map PStep.cmds))
      = [some []] :=
  ⟨rfl, rfl⟩

end TuneLink
